import Mathlib

/-!
Shallow embedding of the wallet / withdrawal backend in `src/backend/server.py`.
Monetary amounts are modelled as rationals, timestamps as naturals (the source
stores ISO-8601 strings, whose ordering is isomorphic to the time order), and
the Mongo collections as lists in insertion order.  Nondeterministic inputs of
the handlers (fresh uuids, the current time, the bcrypt hash) are passed in as
explicit parameters.  `find_one` becomes `List.find?`, `insert_one` appends,
and `update_one` updates the first matching element (`updateFirst`), exactly
as Mongo does.
-/

namespace Server

/-- Withdrawal status enum (`WithdrawalStatus` in the source). -/
inductive WithdrawalStatus where
  | pending
  | approved
  | rejected
deriving DecidableEq, Repr

/-- Payment method enum (`PaymentMethod` in the source). -/
inductive PaymentMethod where
  | esewa
  | khalti
deriving DecidableEq, Repr

/-- User document (`User` model in the source). -/
structure User where
  id : String
  email : String
  password_hash : String
  full_name : String
  wallet_balance : ℚ := 0
  total_earned : ℚ := 0
  ads_watched : Nat := 0
  referral_code : String
  referred_by : Option String := none
  is_admin : Bool := false
  created_at : Nat := 0
deriving DecidableEq, Repr

/-- Ad watch event document (`AdWatch` model in the source). -/
structure AdWatch where
  id : String
  user_id : String
  ad_type : String := "video"
  reward_amount : ℚ := 1/2
  watched_at : Nat := 0
deriving DecidableEq, Repr

/-- Withdrawal request document (`WithdrawalRequest` model in the source). -/
structure WithdrawalRequest where
  id : String
  user_id : String
  amount : ℚ
  payment_method : PaymentMethod
  payment_id : String
  status : WithdrawalStatus := .pending
  requested_at : Nat := 0
  processed_at : Option Nat := none
  admin_notes : Option String := none
deriving DecidableEq, Repr

/-- Wallet transaction document (`WalletTransaction` model in the source). -/
structure WalletTransaction where
  id : String
  user_id : String
  type : String
  amount : ℚ
  description : String
  created_at : Nat := 0
deriving DecidableEq, Repr

/-- Request body of POST auth/signup (`UserCreate` in the source). -/
structure UserCreate where
  email : String
  password : String
  full_name : String
  referral_code : Option String := none
deriving DecidableEq, Repr

/-- Request body of POST ads/watch (`AdWatchCreate` in the source). -/
structure AdWatchCreate where
  ad_type : String := "video"
deriving DecidableEq, Repr

/-- Request body of POST withdrawals/request (`WithdrawalCreate` in the source). -/
structure WithdrawalCreate where
  amount : ℚ
  payment_method : PaymentMethod
  payment_id : String
deriving DecidableEq, Repr

/-- Request body of PUT admin/withdrawals (`WithdrawalUpdate` in the source). -/
structure WithdrawalUpdate where
  status : WithdrawalStatus
  admin_notes : Option String := none
deriving DecidableEq, Repr

/-- The persistent state: the four Mongo collections used by the handlers. -/
structure DB where
  users : List User
  transactions : List WalletTransaction
  ad_watches : List AdWatch
  withdrawals : List WithdrawalRequest
deriving DecidableEq, Repr

/-- Errors raised as `HTTPException` by the handlers. -/
inductive Err where
  | unauthorized
  | forbidden
  | notFound
  | badRequest (detail : String)
  | serverError
deriving DecidableEq, Repr

/-- Python truthiness of an optional string: `None` and the empty string are
falsy.  The source guards `user_data.referral_code` and
`update_data.admin_notes` with bare `if x:` checks. -/
def truthy : Option String → Option String
  | some s => if s = "" then none else some s
  | none => none

/-- Mongo `update_one`: apply `f` to the first element satisfying `p`,
leaving everything else in place. -/
def updateFirst (p : α → Bool) (f : α → α) : List α → List α
  | [] => []
  | a :: t => if p a then f a :: t else a :: updateFirst p f t

/-- Mongo `db.users.find_one({"id": uid})`. -/
def findUser (db : DB) (uid : String) : Option User :=
  db.users.find? (fun u => u.id == uid)

/-- The state the caller is left with: the new state on success, the old
state when the handler raised (FastAPI discards nothing on an exception,
and every handler raises before its first mutation). -/
def dbAfter (r : Except Err (DB × α)) (db : DB) : DB :=
  match r with
  | .ok (db', _) => db'
  | .error _ => db

/-- `POST /api/auth/signup` (`signup` in the source).  `newId`, `refCode`,
`pwHash`, `txId` and `now` stand for the uuid / bcrypt / clock calls. -/
def signup (db : DB) (user_data : UserCreate) (newId refCode pwHash txId : String)
    (now : Nat) : Except Err (DB × User) :=
  if (db.users.find? (fun u => u.email == user_data.email)).isSome then
    .error (.badRequest "Email already registered")
  else
    let user : User :=
      { id := newId, email := user_data.email, password_hash := pwHash,
        full_name := user_data.full_name, referral_code := refCode, created_at := now }
    match truthy user_data.referral_code with
    | some code =>
      match db.users.find? (fun u => u.referral_code == code) with
      | some referrer =>
        let user := { user with referred_by := some referrer.id }
        let txn : WalletTransaction :=
          { id := txId, user_id := referrer.id, type := "referral_bonus", amount := 5,
            description := "Referral bonus for inviting " ++ user.full_name,
            created_at := now }
        let users' := updateFirst (fun u => u.id == referrer.id)
          (fun u => { u with wallet_balance := u.wallet_balance + 5,
                             total_earned := u.total_earned + 5 }) db.users
        .ok ({ db with users := users' ++ [user],
                       transactions := db.transactions ++ [txn] }, user)
      | none => .ok ({ db with users := db.users ++ [user] }, user)
    | none => .ok ({ db with users := db.users ++ [user] }, user)

/-- Response body of `POST /api/ads/watch`. -/
structure WatchResp where
  message : String
  reward : ℚ
  new_balance : ℚ
deriving DecidableEq, Repr

/-- `POST /api/ads/watch` (`watch_ad` in the source).  `uid` is the id the
auth gate resolved from the bearer token. -/
def watch_ad (db : DB) (uid : String) (ad_data : AdWatchCreate)
    (adId txId : String) (now : Nat) : Except Err (DB × WatchResp) :=
  match findUser db uid with
  | none => .error .unauthorized
  | some current_user =>
    let reward_amount : ℚ := 1/2
    let ad_watch : AdWatch :=
      { id := adId, user_id := current_user.id, ad_type := ad_data.ad_type,
        reward_amount := reward_amount, watched_at := now }
    let users' := updateFirst (fun u => u.id == current_user.id)
      (fun u => { u with wallet_balance := u.wallet_balance + reward_amount,
                         total_earned := u.total_earned + reward_amount,
                         ads_watched := u.ads_watched + 1 }) db.users
    let txn : WalletTransaction :=
      { id := txId, user_id := current_user.id, type := "ad_reward",
        amount := reward_amount,
        description := "Reward for watching " ++ ad_data.ad_type ++ " ad",
        created_at := now }
    .ok ({ db with users := users',
                   ad_watches := db.ad_watches ++ [ad_watch],
                   transactions := db.transactions ++ [txn] },
         { message := "Ad watched successfully!", reward := reward_amount,
           new_balance := current_user.wallet_balance + reward_amount })

/-- `POST /api/withdrawals/request` (`request_withdrawal` in the source).
The minimum check precedes the fresh balance read and check, as in the
source; the success branch debits the wallet and inserts the request. -/
def request_withdrawal (db : DB) (uid : String) (withdrawal_data : WithdrawalCreate)
    (newId : String) (now : Nat) : Except Err (DB × String) :=
  match findUser db uid with
  | none => .error .unauthorized
  | some current_user =>
    if withdrawal_data.amount < 10 then
      .error (.badRequest "Minimum withdrawal amount is $10")
    else
      match findUser db current_user.id with
      | none => .error .serverError
      | some user =>
        if user.wallet_balance < withdrawal_data.amount then
          .error (.badRequest "Insufficient balance")
        else
          let withdrawal : WithdrawalRequest :=
            { id := newId, user_id := current_user.id,
              amount := withdrawal_data.amount,
              payment_method := withdrawal_data.payment_method,
              payment_id := withdrawal_data.payment_id,
              requested_at := now }
          let users' := updateFirst (fun u => u.id == current_user.id)
            (fun u => { u with wallet_balance := u.wallet_balance - withdrawal_data.amount })
            db.users
          .ok ({ db with users := users',
                         withdrawals := db.withdrawals ++ [withdrawal] },
               withdrawal.id)

/-- Primitive storage writes performed by `update_withdrawal`, listed in
program order so the refund-before-persist ordering is visible. -/
inductive Eff where
  | incBalance (uid : String) (amt : ℚ)
  | setWithdrawal (wid : String) (st : WithdrawalStatus) (processed : Nat)
      (notes : Option String)
deriving DecidableEq, Repr

/-- The `$set` document applied to a withdrawal: status, processed_at and,
when the notes are truthy, admin_notes. -/
def setFields (st : WithdrawalStatus) (processed : Nat) (notes : Option String)
    (w : WithdrawalRequest) : WithdrawalRequest :=
  { w with status := st, processed_at := some processed,
           admin_notes := (match notes with
             | some s => some s
             | none => w.admin_notes) }

/-- Apply one storage write to the state. -/
def applyEff (db : DB) : Eff → DB
  | .incBalance uid amt =>
    { db with users := (updateFirst (fun u => u.id == uid)
        (fun u => { u with wallet_balance := u.wallet_balance + amt }) db.users) }
  | .setWithdrawal wid st processed notes =>
    { db with withdrawals := (updateFirst (fun w => w.id == wid)
        (setFields st processed notes) db.withdrawals) }

/-- The sequence of storage writes of `PUT /api/admin/withdrawals/wid`
(`update_withdrawal` in the source): on `rejected` the wallet refund is
issued first, then the `$set` of status / processed_at / admin_notes. -/
def update_withdrawal_effects (db : DB) (adminUid wid : String)
    (update_data : WithdrawalUpdate) (now : Nat) : Except Err (List Eff) :=
  match findUser db adminUid with
  | none => .error .unauthorized
  | some admin_user =>
    if admin_user.is_admin then
      match db.withdrawals.find? (fun w => w.id == wid) with
      | none => .error .notFound
      | some withdrawal =>
        let notes := truthy update_data.admin_notes
        if update_data.status = .rejected then
          .ok [.incBalance withdrawal.user_id withdrawal.amount,
               .setWithdrawal wid update_data.status now notes]
        else
          .ok [.setWithdrawal wid update_data.status now notes]
    else .error .forbidden

/-- String form of a status, used in the success message. -/
def statusToString : WithdrawalStatus → String
  | .pending => "pending"
  | .approved => "approved"
  | .rejected => "rejected"

/-- `PUT /api/admin/withdrawals/wid`: run the storage writes in order. -/
def update_withdrawal (db : DB) (adminUid wid : String)
    (update_data : WithdrawalUpdate) (now : Nat) : Except Err (DB × String) :=
  (update_withdrawal_effects db adminUid wid update_data now).map
    (fun effs => (effs.foldl applyEff db,
      "Withdrawal " ++ statusToString update_data.status ++ " successfully"))

/-- `GET /api/wallet/transactions` (`get_transactions` in the source):
filter by owner, sort by `created_at` descending, `to_list(100)`. -/
def get_transactions (db : DB) (uid : String) :
    Except Err (List WalletTransaction) :=
  match findUser db uid with
  | none => .error .unauthorized
  | some current_user =>
    .ok (((db.transactions.filter (fun t => t.user_id == current_user.id)).mergeSort
      (fun a b => b.created_at ≤ a.created_at)).take 100)

/-- `GET /api/withdrawals/my-requests` (`get_my_withdrawals` in the source). -/
def get_my_withdrawals (db : DB) (uid : String) :
    Except Err (List WithdrawalRequest) :=
  match findUser db uid with
  | none => .error .unauthorized
  | some current_user =>
    .ok (((db.withdrawals.filter (fun w => w.user_id == current_user.id)).mergeSort
      (fun a b => b.requested_at ≤ a.requested_at)).take 100)

/-- One row of the admin listing: the request joined with the owning
user name and email, or the sentinel "Unknown". -/
structure AdminWithdrawalView where
  w : WithdrawalRequest
  user_name : String
  user_email : String
deriving DecidableEq, Repr

/-- `GET /api/admin/withdrawals` (`get_all_withdrawals` in the source). -/
def get_all_withdrawals (db : DB) (adminUid : String) :
    Except Err (List AdminWithdrawalView) :=
  match findUser db adminUid with
  | none => .error .unauthorized
  | some admin_user =>
    if admin_user.is_admin then
      .ok (((db.withdrawals.mergeSort
          (fun a b => b.requested_at ≤ a.requested_at)).take 100).map
        (fun w => match findUser db w.user_id with
          | some u => { w := w, user_name := u.full_name, user_email := u.email }
          | none => { w := w, user_name := "Unknown", user_email := "Unknown" }))
    else .error .forbidden

/-- Invariant: every user document carries a non-negative balance. -/
@[reducible] def BalancesNonneg (db : DB) : Prop :=
  ∀ u ∈ db.users, 0 ≤ u.wallet_balance

/-- Invariant: every withdrawal document carries a non-negative amount. -/
@[reducible] def WithdrawalAmountsNonneg (db : DB) : Prop :=
  ∀ w ∈ db.withdrawals, 0 ≤ w.amount

/-! ### Concrete fixtures used to instantiate the theorems -/

/-- A regular user holding 20 in the wallet. -/
def alice : User :=
  { id := "u1", email := "alice@example.com", password_hash := "h1",
    full_name := "Alice", wallet_balance := 20, total_earned := 20,
    ads_watched := 40, referral_code := "ALICE123", created_at := 1 }

/-- An administrator account. -/
def adminUser : User :=
  { id := "a1", email := "admin@example.com", password_hash := "h2",
    full_name := "Admin", referral_code := "ADMIN123", is_admin := true,
    created_at := 0 }

/-- A store holding the two users and no other documents. -/
def exDb : DB :=
  { users := [alice, adminUser], transactions := [], ad_watches := [],
    withdrawals := [] }

/-- An already-approved withdrawal of 20 owned by alice. -/
def wApproved : WithdrawalRequest :=
  { id := "w1", user_id := "u1", amount := 20, payment_method := .esewa,
    payment_id := "esewa-1", status := .approved, requested_at := 2,
    processed_at := some 3 }

/-- Store with a terminal (approved) withdrawal on file. -/
def exDbTerminal : DB :=
  { users := [alice, adminUser], transactions := [], ad_watches := [],
    withdrawals := [wApproved] }

/-- A pending withdrawal of 15 owned by alice. -/
def wPending : WithdrawalRequest :=
  { id := "w3", user_id := "u1", amount := 15, payment_method := .khalti,
    payment_id := "khalti-9", status := .pending, requested_at := 6 }

/-- Store with alices pending withdrawal on file. -/
def exDbPending : DB :=
  { users := [alice, adminUser], transactions := [], ad_watches := [],
    withdrawals := [wPending] }

/-- A user with an empty wallet. -/
def bob : User :=
  { id := "u2", email := "bob@example.com", password_hash := "h3",
    full_name := "Bob", referral_code := "BOB12345", created_at := 4 }

/-- A pending withdrawal document carrying a negative amount. -/
def wNegative : WithdrawalRequest :=
  { id := "w2", user_id := "u2", amount := -20, payment_method := .khalti,
    payment_id := "khalti-1", status := .pending, requested_at := 5 }

/-- Store in which every balance is non-negative but a withdrawal document
records a negative amount. -/
def exDbNegative : DB :=
  { users := [bob, adminUser], transactions := [], ad_watches := [],
    withdrawals := [wNegative] }

/-! ### Lemmas about `updateFirst` and `find?` -/

/-- Looking the key up after `updateFirst` on the same key sees exactly the
updated document, provided the update preserves the key. -/
theorem find?_updateFirst_same (p : α → Bool) (f : α → α)
    (hf : ∀ a, p a = true → p (f a) = true) (l : List α) :
    (updateFirst p f l).find? p = (l.find? p).map f := by
  induction l with
  | nil => rfl
  | cons a t ih =>
    by_cases h : p a
    · simp [updateFirst, h, hf a h]
    · simp [updateFirst, h, ih]

/-- `updateFirst` is invisible to a `find?` whose predicate rejects both the
matched document and its update. -/
theorem find?_updateFirst_other (p q : α → Bool) (f : α → α)
    (h : ∀ a, p a = true → q a = false ∧ q (f a) = false) (l : List α) :
    (updateFirst p f l).find? q = l.find? q := by
  induction l with
  | nil => rfl
  | cons a t ih =>
    by_cases hp : p a
    · simp [updateFirst, hp, (h a hp).1, (h a hp).2]
    · by_cases hq : q a
      · simp [updateFirst, hp, hq]
      · simp [updateFirst, hp, hq, ih]

/-- Every member of `updateFirst p f l` is either an untouched member of `l`
or the image under `f` of the first match, i.e. of `l.find? p`. -/
theorem mem_updateFirst {a : α} (p : α → Bool) (f : α → α) (l : List α)
    (h : a ∈ updateFirst p f l) :
    a ∈ l ∨ ∃ b, l.find? p = some b ∧ a = f b := by
  induction l with
  | nil => simp [updateFirst] at h
  | cons x t ih =>
    by_cases hp : p x
    · simp only [updateFirst, if_pos hp] at h
      rcases List.mem_cons.mp h with h | h
      · exact Or.inr ⟨x, by simp [hp], h⟩
      · exact Or.inl (List.mem_cons_of_mem _ h)
    · simp only [updateFirst, if_neg hp] at h
      rcases List.mem_cons.mp h with h | h
      · exact Or.inl (h ▸ List.mem_cons_self x t)
      · rcases ih h with h | ⟨b, hb, rfl⟩
        · exact Or.inl (List.mem_cons_of_mem _ h)
        · exact Or.inr ⟨b, by simp [hp, hb], rfl⟩

/-- A user found by id carries that id. -/
theorem findUser_id {db : DB} {uid : String} {cu : User}
    (hcu : findUser db uid = some cu) : cu.id = uid := by
  have := List.find?_some hcu
  simpa using this

/-- Signup result when the email is already registered. -/
theorem signup_email_taken_eq (db : DB) (d : UserCreate)
    (newId refCode pwHash txId : String) (now : Nat)
    (he : (db.users.find? (fun u => u.email == d.email)).isSome) :
    signup db d newId refCode pwHash txId now =
      .error (.badRequest "Email already registered") := by
  unfold signup
  rw [if_pos he]

/-- Signup result when no truthy referral code is supplied. -/
theorem signup_no_referral_eq (db : DB) (d : UserCreate)
    (newId refCode pwHash txId : String) (now : Nat)
    (he : ¬ ((db.users.find? (fun u => u.email == d.email)).isSome = true))
    (hc : truthy d.referral_code = none) :
    signup db d newId refCode pwHash txId now =
      .ok ({ db with users := db.users ++
              [{ id := newId, email := d.email, password_hash := pwHash,
                 full_name := d.full_name, referral_code := refCode,
                 created_at := now }] },
           { id := newId, email := d.email, password_hash := pwHash,
             full_name := d.full_name, referral_code := refCode,
             created_at := now }) := by
  unfold signup
  rw [if_neg he]
  simp only [hc]

/-- Signup result when the referral code resolves to no user. -/
theorem signup_unknown_code_eq (db : DB) (d : UserCreate)
    (newId refCode pwHash txId : String) (now : Nat) (code : String)
    (he : ¬ ((db.users.find? (fun u => u.email == d.email)).isSome = true))
    (hc : truthy d.referral_code = some code)
    (hr : db.users.find? (fun u => u.referral_code == code) = none) :
    signup db d newId refCode pwHash txId now =
      .ok ({ db with users := db.users ++
              [{ id := newId, email := d.email, password_hash := pwHash,
                 full_name := d.full_name, referral_code := refCode,
                 created_at := now }] },
           { id := newId, email := d.email, password_hash := pwHash,
             full_name := d.full_name, referral_code := refCode,
             created_at := now }) := by
  unfold signup
  rw [if_neg he]
  simp only [hc, hr]

/-- Signup result when the referral code resolves to a referrer. -/
theorem signup_with_referrer_eq (db : DB) (d : UserCreate)
    (newId refCode pwHash txId : String) (now : Nat) (code : String)
    (referrer : User)
    (he : ¬ ((db.users.find? (fun u => u.email == d.email)).isSome = true))
    (hc : truthy d.referral_code = some code)
    (hr : db.users.find? (fun u => u.referral_code == code) = some referrer) :
    signup db d newId refCode pwHash txId now =
      .ok ({ db with
              users := updateFirst (fun u => u.id == referrer.id)
                (fun u => { u with wallet_balance := u.wallet_balance + 5,
                                   total_earned := u.total_earned + 5 })
                db.users ++
                [{ id := newId, email := d.email, password_hash := pwHash,
                   full_name := d.full_name, referral_code := refCode,
                   referred_by := some referrer.id, created_at := now }],
              transactions := db.transactions ++
                [{ id := txId, user_id := referrer.id,
                   type := "referral_bonus", amount := 5,
                   description := "Referral bonus for inviting " ++ d.full_name,
                   created_at := now }] },
           { id := newId, email := d.email, password_hash := pwHash,
             full_name := d.full_name, referral_code := refCode,
             referred_by := some referrer.id, created_at := now }) := by
  unfold signup
  rw [if_neg he]
  simp only [hc, hr]

/-! ### Claims -/

/-- C1: a withdrawal request below the 10.0 minimum fails with the
below-minimum client error (the minimum check runs first, regardless of the
balance); one of at least 10.0 but above the callers current balance fails
with the insufficient-funds client error; on either failure the state, hence
the callers wallet_balance and the withdrawal collection, is unchanged. -/
theorem requestWithdrawal_error_cases
    (db : DB) (uid : String) (wd : WithdrawalCreate) (newId : String) (now : Nat)
    (cu : User) (hcu : findUser db uid = some cu) :
    (wd.amount < 10 →
      request_withdrawal db uid wd newId now =
        .error (.badRequest "Minimum withdrawal amount is $10") ∧
      dbAfter (request_withdrawal db uid wd newId now) db = db) ∧
    (10 ≤ wd.amount → cu.wallet_balance < wd.amount →
      request_withdrawal db uid wd newId now =
        .error (.badRequest "Insufficient balance") ∧
      dbAfter (request_withdrawal db uid wd newId now) db = db) := by
  have hid : cu.id = uid := findUser_id hcu
  constructor
  · intro hlt
    have hres : request_withdrawal db uid wd newId now =
        .error (.badRequest "Minimum withdrawal amount is $10") := by
      unfold request_withdrawal
      rw [hcu]
      simp [hlt]
    exact ⟨hres, by rw [hres]; rfl⟩
  · intro h10 hbal
    have hres : request_withdrawal db uid wd newId now =
        .error (.badRequest "Insufficient balance") := by
      unfold request_withdrawal
      rw [hcu]
      simp only [hid, hcu, not_lt.mpr h10, if_false]
      simp [hbal]
    exact ⟨hres, by rw [hres]; rfl⟩

/-- C1 witness: with alice holding 20, an amount of 5 trips the minimum
check and an amount of 50 trips the balance check, both without touching
the state. -/
theorem requestWithdrawal_error_cases_witness :
    (request_withdrawal exDb "u1"
        { amount := 5, payment_method := .esewa, payment_id := "p" } "w9" 7 =
      .error (.badRequest "Minimum withdrawal amount is $10")) ∧
    (request_withdrawal exDb "u1"
        { amount := 50, payment_method := .esewa, payment_id := "p" } "w9" 7 =
      .error (.badRequest "Insufficient balance")) ∧
    dbAfter (request_withdrawal exDb "u1"
        { amount := 50, payment_method := .esewa, payment_id := "p" } "w9" 7) exDb = exDb :=
  ⟨((requestWithdrawal_error_cases exDb "u1" _ "w9" 7 alice (by decide)).1
      (by norm_num)).1,
   ((requestWithdrawal_error_cases exDb "u1" _ "w9" 7 alice (by decide)).2
      (by norm_num) (by decide)).1,
   ((requestWithdrawal_error_cases exDb "u1" _ "w9" 7 alice (by decide)).2
      (by norm_num) (by decide)).2⟩

/-- C2: a withdrawal request passing both checks debits the caller by
exactly the amount, appends exactly one pending WithdrawalRequest record
carrying the callers id, the amount, the payment method and the payment id,
touches nothing else, and returns that records id. -/
theorem requestWithdrawal_success
    (db : DB) (uid : String) (wd : WithdrawalCreate) (newId : String) (now : Nat)
    (cu : User) (hcu : findUser db uid = some cu)
    (h10 : 10 ≤ wd.amount) (hbal : wd.amount ≤ cu.wallet_balance) :
    ∃ db', request_withdrawal db uid wd newId now = .ok (db', newId) ∧
      findUser db' uid =
        some { cu with wallet_balance := cu.wallet_balance - wd.amount } ∧
      db'.withdrawals = db.withdrawals ++
        [{ id := newId, user_id := uid, amount := wd.amount,
           payment_method := wd.payment_method, payment_id := wd.payment_id,
           status := .pending, requested_at := now, processed_at := none,
           admin_notes := none }] ∧
      db'.transactions = db.transactions ∧
      db'.ad_watches = db.ad_watches := by
  have hid : cu.id = uid := findUser_id hcu
  have hres : request_withdrawal db uid wd newId now =
      .ok ({ db with
              users := updateFirst (fun u => u.id == cu.id)
                (fun u => { u with wallet_balance := u.wallet_balance - wd.amount })
                db.users,
              withdrawals := db.withdrawals ++
                [{ id := newId, user_id := cu.id, amount := wd.amount,
                   payment_method := wd.payment_method,
                   payment_id := wd.payment_id, status := .pending,
                   requested_at := now, processed_at := none,
                   admin_notes := none }] }, newId) := by
    unfold request_withdrawal
    rw [hcu]
    simp only [hid, hcu, not_lt.mpr h10, if_false, not_lt.mpr hbal]
  refine ⟨_, hres, ?_, by simp [hid], rfl, rfl⟩
  show ((updateFirst (fun u => u.id == cu.id)
      (fun u => { u with wallet_balance := u.wallet_balance - wd.amount })
      db.users).find? (fun u => u.id == uid)) = _
  rw [← hid]
  rw [find?_updateFirst_same (fun u => u.id == cu.id)
    (fun u => { u with wallet_balance := u.wallet_balance - wd.amount })
    (fun a ha => ha) db.users]
  have hcu' : db.users.find? (fun u => u.id == cu.id) = some cu := by
    rw [hid]; exact hcu
  rw [hcu']
  rfl

/-- C2 witness: alice (balance 20) withdraws 15; her balance drops to 5 and
one pending request for 15 is on file. -/
theorem requestWithdrawal_success_witness :
    (10 : ℚ) ≤ 15 ∧ (15 : ℚ) ≤ alice.wallet_balance ∧
    (∃ db', request_withdrawal exDb "u1"
        { amount := 15, payment_method := .khalti, payment_id := "k1" } "w9" 7 =
        .ok (db', "w9") ∧
      findUser db' "u1" = some { alice with wallet_balance := 20 - 15 } ∧
      db'.withdrawals = exDb.withdrawals ++
        [{ id := "w9", user_id := "u1", amount := 15, payment_method := .khalti,
           payment_id := "k1", status := .pending, requested_at := 7,
           processed_at := none, admin_notes := none }] ∧
      db'.transactions = exDb.transactions ∧
      db'.ad_watches = exDb.ad_watches) := by
  refine ⟨by norm_num, by decide, ?_⟩
  exact requestWithdrawal_success exDb "u1" _ "w9" 7 alice (by decide)
    (by norm_num) (by decide)

/-- Computation of a successful ad watch: the exact state and response. -/
theorem watch_ad_eq (db : DB) (uid : String) (ad_data : AdWatchCreate)
    (adId txId : String) (now : Nat) (cu : User)
    (hcu : findUser db uid = some cu) :
    watch_ad db uid ad_data adId txId now =
      .ok ({ db with
              users := updateFirst (fun u => u.id == cu.id)
                (fun u => { u with wallet_balance := u.wallet_balance + 1/2,
                                   total_earned := u.total_earned + 1/2,
                                   ads_watched := u.ads_watched + 1 }) db.users,
              ad_watches := db.ad_watches ++
                [{ id := adId, user_id := cu.id, ad_type := ad_data.ad_type,
                   reward_amount := 1/2, watched_at := now }],
              transactions := db.transactions ++
                [{ id := txId, user_id := cu.id, type := "ad_reward",
                   amount := 1/2,
                   description := "Reward for watching " ++ ad_data.ad_type ++ " ad",
                   created_at := now }] },
           { message := "Ad watched successfully!", reward := 1/2,
             new_balance := cu.wallet_balance + 1/2 }) := by
  unfold watch_ad
  rw [hcu]

/-- C6: an ad watch by an authenticated user raises that users
wallet_balance and total_earned by exactly the fixed reward 0.5, raises
ads_watched by exactly 1, and appends exactly one `ad_reward` transaction
for that user. -/
theorem watchAd_credits
    (db : DB) (uid : String) (ad_data : AdWatchCreate) (adId txId : String)
    (now : Nat) (cu : User) (hcu : findUser db uid = some cu) :
    ∃ db' resp, watch_ad db uid ad_data adId txId now = .ok (db', resp) ∧
      findUser db' uid =
        some { cu with wallet_balance := cu.wallet_balance + 1/2,
                       total_earned := cu.total_earned + 1/2,
                       ads_watched := cu.ads_watched + 1 } ∧
      db'.transactions = db.transactions ++
        [{ id := txId, user_id := uid, type := "ad_reward", amount := 1/2,
           description := "Reward for watching " ++ ad_data.ad_type ++ " ad",
           created_at := now }] ∧
      db'.withdrawals = db.withdrawals := by
  have hid : cu.id = uid := findUser_id hcu
  refine ⟨_, _, watch_ad_eq db uid ad_data adId txId now cu hcu, ?_, by simp [hid], rfl⟩
  show ((updateFirst (fun u => u.id == cu.id)
      (fun u => { u with wallet_balance := u.wallet_balance + 1/2,
                         total_earned := u.total_earned + 1/2,
                         ads_watched := u.ads_watched + 1 })
      db.users).find? (fun u => u.id == uid)) = _
  rw [← hid]
  rw [find?_updateFirst_same (fun u => u.id == cu.id)
    (fun u => { u with wallet_balance := u.wallet_balance + 1/2,
                       total_earned := u.total_earned + 1/2,
                       ads_watched := u.ads_watched + 1 })
    (fun a ha => ha) db.users]
  have hcu' : db.users.find? (fun u => u.id == cu.id) = some cu := by
    rw [hid]; exact hcu
  rw [hcu']
  rfl

/-- C6 witness: alice watches one ad and moves from 20 / 20 / 40 to
20.5 / 20.5 / 41 with a single `ad_reward` transaction appended. -/
theorem watchAd_credits_witness :
    ∃ db' resp, watch_ad exDb "u1" { ad_type := "video" } "ad1" "t1" 9 =
        .ok (db', resp) ∧
      findUser db' "u1" =
        some { alice with wallet_balance := 20 + 1/2,
                          total_earned := 20 + 1/2, ads_watched := 41 } ∧
      db'.transactions = exDb.transactions ++
        [{ id := "t1", user_id := "u1", type := "ad_reward", amount := 1/2,
           description := "Reward for watching " ++ "video" ++ " ad",
           created_at := 9 }] ∧
      db'.withdrawals = exDb.withdrawals :=
  watchAd_credits exDb "u1" { ad_type := "video" } "ad1" "t1" 9 alice (by decide)

/-- C10: the new_balance a successful ad watch returns is the balance of
the record the auth gate resolved plus the 0.5 reward, and in this
sequential model it equals the balance persisted for the caller after the
call. -/
theorem watchAd_returned_balance
    (db : DB) (uid : String) (ad_data : AdWatchCreate) (adId txId : String)
    (now : Nat) (cu : User) (hcu : findUser db uid = some cu) :
    ∃ db' resp, watch_ad db uid ad_data adId txId now = .ok (db', resp) ∧
      resp.new_balance = cu.wallet_balance + 1/2 ∧
      (findUser db' uid).map (fun u => u.wallet_balance) =
        some resp.new_balance := by
  have hid : cu.id = uid := findUser_id hcu
  refine ⟨_, _, watch_ad_eq db uid ad_data adId txId now cu hcu, rfl, ?_⟩
  show ((updateFirst (fun u => u.id == cu.id)
      (fun u => { u with wallet_balance := u.wallet_balance + 1/2,
                         total_earned := u.total_earned + 1/2,
                         ads_watched := u.ads_watched + 1 })
      db.users).find? (fun u => u.id == uid)).map (fun u => u.wallet_balance) = _
  rw [← hid]
  rw [find?_updateFirst_same (fun u => u.id == cu.id)
    (fun u => { u with wallet_balance := u.wallet_balance + 1/2,
                       total_earned := u.total_earned + 1/2,
                       ads_watched := u.ads_watched + 1 })
    (fun a ha => ha) db.users]
  have hcu' : db.users.find? (fun u => u.id == cu.id) = some cu := by
    rw [hid]; exact hcu
  rw [hcu']
  rfl

/-- C10 witness: alices call returns new_balance 20.5, which is also the
balance then on file for her. -/
theorem watchAd_returned_balance_witness :
    ∃ db' resp, watch_ad exDb "u1" { ad_type := "video" } "ad1" "t1" 9 =
        .ok (db', resp) ∧
      resp.new_balance = alice.wallet_balance + 1/2 ∧
      (findUser db' "u1").map (fun u => u.wallet_balance) =
        some resp.new_balance :=
  watchAd_returned_balance exDb "u1" { ad_type := "video" } "ad1" "t1" 9 alice
    (by decide)

/-- Effect list of a process-withdrawal call, as the source emits it. -/
theorem update_withdrawal_effects_eq (db : DB) (aid wid : String)
    (upd : WithdrawalUpdate) (now : Nat) (adm : User) (w : WithdrawalRequest)
    (hadm : findUser db aid = some adm) (hA : adm.is_admin = true)
    (hw : db.withdrawals.find? (fun x => x.id == wid) = some w) :
    update_withdrawal_effects db aid wid upd now =
      .ok (if upd.status = .rejected then
        [.incBalance w.user_id w.amount,
         .setWithdrawal wid upd.status now (truthy upd.admin_notes)]
      else
        [.setWithdrawal wid upd.status now (truthy upd.admin_notes)]) := by
  unfold update_withdrawal_effects
  rw [hadm]
  simp only [hA, if_true, hw]
  split <;> rfl

/-- State computation of a process-withdrawal call that rejects. -/
theorem update_withdrawal_rejected_eq (db : DB) (aid wid : String)
    (upd : WithdrawalUpdate) (now : Nat) (adm : User) (w : WithdrawalRequest)
    (hadm : findUser db aid = some adm) (hA : adm.is_admin = true)
    (hw : db.withdrawals.find? (fun x => x.id == wid) = some w)
    (hrej : upd.status = .rejected) :
    update_withdrawal db aid wid upd now =
      .ok (applyEff (applyEff db (.incBalance w.user_id w.amount))
             (.setWithdrawal wid upd.status now (truthy upd.admin_notes)),
           "Withdrawal " ++ statusToString upd.status ++ " successfully") := by
  unfold update_withdrawal
  rw [update_withdrawal_effects_eq db aid wid upd now adm w hadm hA hw]
  rw [if_pos hrej]
  rfl

/-- State computation of a process-withdrawal call that does not reject. -/
theorem update_withdrawal_not_rejected_eq (db : DB) (aid wid : String)
    (upd : WithdrawalUpdate) (now : Nat) (adm : User) (w : WithdrawalRequest)
    (hadm : findUser db aid = some adm) (hA : adm.is_admin = true)
    (hw : db.withdrawals.find? (fun x => x.id == wid) = some w)
    (hrej : ¬ upd.status = .rejected) :
    update_withdrawal db aid wid upd now =
      .ok (applyEff db (.setWithdrawal wid upd.status now (truthy upd.admin_notes)),
           "Withdrawal " ++ statusToString upd.status ++ " successfully") := by
  unfold update_withdrawal
  rw [update_withdrawal_effects_eq db aid wid upd now adm w hadm hA hw]
  rw [if_neg hrej]
  rfl

/-- A balance increment is seen exactly by the incremented user. -/
theorem findUser_applyEff_inc (db : DB) (uid : String) (amt : ℚ) :
    findUser (applyEff db (.incBalance uid amt)) uid =
      (findUser db uid).map
        (fun u => { u with wallet_balance := u.wallet_balance + amt }) := by
  show (updateFirst (fun u => u.id == uid) _ db.users).find? (fun u => u.id == uid) = _
  exact find?_updateFirst_same (fun u => u.id == uid)
    (fun u => { u with wallet_balance := u.wallet_balance + amt })
    (fun a ha => ha) db.users

/-- The `$set` write is seen exactly by a lookup of the same request id. -/
theorem find?_applyEff_set (db : DB) (wid : String) (st : WithdrawalStatus)
    (now : Nat) (notes : Option String) :
    ((applyEff db (.setWithdrawal wid st now notes)).withdrawals.find?
        (fun x => x.id == wid)) =
      (db.withdrawals.find? (fun x => x.id == wid)).map
        (setFields st now notes) := by
  show (updateFirst (fun x => x.id == wid) _ db.withdrawals).find? (fun x => x.id == wid) = _
  exact find?_updateFirst_same (fun x => x.id == wid)
    (setFields st now notes) (fun a ha => ha) db.withdrawals

/-- C3: processing an existing withdrawal with status rejected refunds the
owner by exactly the recorded amount, and the refund write precedes the
status write in the emitted effect sequence; an approved call changes no
user document; in every case the request ends with the new status and
processed_at set to the call time. -/
theorem updateWithdrawal_processing
    (db : DB) (aid wid : String) (upd : WithdrawalUpdate) (now : Nat)
    (adm : User) (w : WithdrawalRequest) (owner : User)
    (hadm : findUser db aid = some adm) (hA : adm.is_admin = true)
    (hw : db.withdrawals.find? (fun x => x.id == wid) = some w)
    (howner : findUser db w.user_id = some owner) :
    (upd.status = .rejected →
      update_withdrawal_effects db aid wid upd now =
        .ok [.incBalance w.user_id w.amount,
             .setWithdrawal wid upd.status now (truthy upd.admin_notes)] ∧
      ∃ db' msg, update_withdrawal db aid wid upd now = .ok (db', msg) ∧
        findUser db' w.user_id =
          some { owner with wallet_balance := owner.wallet_balance + w.amount }) ∧
    (upd.status = .approved →
      ∃ db' msg, update_withdrawal db aid wid upd now = .ok (db', msg) ∧
        db'.users = db.users) ∧
    (∀ db' msg, update_withdrawal db aid wid upd now = .ok (db', msg) →
      db'.withdrawals.find? (fun x => x.id == wid) =
        some { w with status := upd.status, processed_at := some now,
                      admin_notes := (match truthy upd.admin_notes with
                        | some s => some s
                        | none => w.admin_notes) }) := by
  refine ⟨?_, ?_, ?_⟩
  · intro hrej
    refine ⟨by rw [update_withdrawal_effects_eq db aid wid upd now adm w hadm hA hw,
      if_pos hrej], ?_⟩
    refine ⟨_, _, update_withdrawal_rejected_eq db aid wid upd now adm w hadm hA hw hrej, ?_⟩
    have husers : findUser (applyEff (applyEff db (.incBalance w.user_id w.amount))
        (.setWithdrawal wid upd.status now (truthy upd.admin_notes))) w.user_id =
        findUser (applyEff db (.incBalance w.user_id w.amount)) w.user_id := rfl
    rw [husers, findUser_applyEff_inc, howner]
    rfl
  · intro happ
    have hrej : ¬ upd.status = .rejected := by rw [happ]; intro hc; cases hc
    exact ⟨_, _, update_withdrawal_not_rejected_eq db aid wid upd now adm w hadm hA hw hrej,
      rfl⟩
  · intro db' msg h
    by_cases hrej : upd.status = .rejected
    · rw [update_withdrawal_rejected_eq db aid wid upd now adm w hadm hA hw hrej] at h
      simp only [Except.ok.injEq, Prod.mk.injEq] at h
      rw [← h.1]
      rw [find?_applyEff_set]
      have hsame : (applyEff db (.incBalance w.user_id w.amount)).withdrawals =
          db.withdrawals := rfl
      rw [hsame, hw]
      rfl
    · rw [update_withdrawal_not_rejected_eq db aid wid upd now adm w hadm hA hw hrej] at h
      simp only [Except.ok.injEq, Prod.mk.injEq] at h
      rw [← h.1]
      rw [find?_applyEff_set, hw]
      rfl

/-- C3 witness: rejecting alices pending withdrawal of 15 emits the refund
write before the status write and leaves her balance at 35. -/
theorem updateWithdrawal_processing_witness :
    (update_withdrawal_effects exDbPending "a1" "w3" { status := .rejected } 8 =
      .ok [.incBalance "u1" 15, .setWithdrawal "w3" .rejected 8 none]) ∧
    (∃ db' msg, update_withdrawal exDbPending "a1" "w3"
        { status := .rejected } 8 = .ok (db', msg) ∧
      findUser db' "u1" = some { alice with wallet_balance := 20 + 15 }) := by
  have h := updateWithdrawal_processing exDbPending "a1" "w3"
    { status := .rejected } 8 adminUser wPending alice
    (by decide) (by decide) (by decide) (by decide)
  exact h.1 rfl

/-- C4 counterexample: the request on file is approved (terminal), yet a
further ProcessWithdrawal call with status rejected both moves the status
to rejected and raises the owners wallet_balance from 20 to 40. -/
theorem updateWithdrawal_terminal_counterexample :
    ((exDbTerminal.withdrawals.find? (fun x => x.id == "w1")).map
        (fun x => x.status) = some .approved) ∧
    ((dbAfter (update_withdrawal exDbTerminal "a1" "w1" { status := .rejected } 9)
        exDbTerminal).withdrawals.find? (fun x => x.id == "w1")).map
        (fun x => x.status) = some .rejected ∧
    WithdrawalStatus.rejected ≠ WithdrawalStatus.approved ∧
    (findUser exDbTerminal "u1").map (fun u => u.wallet_balance) = some 20 ∧
    (findUser (dbAfter (update_withdrawal exDbTerminal "a1" "w1"
        { status := .rejected } 9) exDbTerminal) "u1").map
      (fun u => u.wallet_balance) = some 40 := by
  refine ⟨rfl, rfl, by decide, rfl, ?_⟩
  show some ((20 : ℚ) + 20) = some 40
  norm_num

/-- C4 amended: the source has no terminal-state guard.  Re-processing an
already-terminal request sets its status to whatever status the call
carries; when that status is rejected the owners wallet_balance is
credited the recorded amount again, and only an approved call leaves the
user documents unchanged. -/
theorem updateWithdrawal_no_terminal_guard
    (db : DB) (aid wid : String) (upd : WithdrawalUpdate) (now : Nat)
    (adm : User) (w : WithdrawalRequest) (owner : User)
    (hadm : findUser db aid = some adm) (hA : adm.is_admin = true)
    (hw : db.withdrawals.find? (fun x => x.id == wid) = some w)
    (_hterm : w.status = .approved ∨ w.status = .rejected)
    (howner : findUser db w.user_id = some owner) :
    (∀ db' msg, update_withdrawal db aid wid upd now = .ok (db', msg) →
      (db'.withdrawals.find? (fun x => x.id == wid)).map (fun x => x.status) =
        some upd.status) ∧
    (upd.status = .rejected →
      ∃ db' msg, update_withdrawal db aid wid upd now = .ok (db', msg) ∧
        findUser db' w.user_id =
          some { owner with wallet_balance := owner.wallet_balance + w.amount }) ∧
    (upd.status = .approved →
      ∃ db' msg, update_withdrawal db aid wid upd now = .ok (db', msg) ∧
        db'.users = db.users) := by
  refine ⟨?_, ?_, ?_⟩
  · intro db' msg h
    by_cases hrej : upd.status = .rejected
    · rw [update_withdrawal_rejected_eq db aid wid upd now adm w hadm hA hw hrej] at h
      simp only [Except.ok.injEq, Prod.mk.injEq] at h
      rw [← h.1]
      rw [find?_applyEff_set]
      have hsame : (applyEff db (.incBalance w.user_id w.amount)).withdrawals =
          db.withdrawals := rfl
      rw [hsame, hw]
      rfl
    · rw [update_withdrawal_not_rejected_eq db aid wid upd now adm w hadm hA hw hrej] at h
      simp only [Except.ok.injEq, Prod.mk.injEq] at h
      rw [← h.1]
      rw [find?_applyEff_set, hw]
      rfl
  · intro hrej
    refine ⟨_, _, update_withdrawal_rejected_eq db aid wid upd now adm w hadm hA hw hrej, ?_⟩
    have husers : findUser (applyEff (applyEff db (.incBalance w.user_id w.amount))
        (.setWithdrawal wid upd.status now (truthy upd.admin_notes))) w.user_id =
        findUser (applyEff db (.incBalance w.user_id w.amount)) w.user_id := rfl
    rw [husers, findUser_applyEff_inc, howner]
    rfl
  · intro happ
    have hrej : ¬ upd.status = .rejected := by rw [happ]; intro hc; cases hc
    exact ⟨_, _, update_withdrawal_not_rejected_eq db aid wid upd now adm w hadm hA hw hrej,
      rfl⟩

/-- C4 amended witness: re-rejecting the approved request w1 overwrites its
status and credits alice 20 again. -/
theorem updateWithdrawal_no_terminal_guard_witness :
    ∃ db' msg, update_withdrawal exDbTerminal "a1" "w1"
        { status := .rejected } 9 = .ok (db', msg) ∧
      findUser db' "u1" = some { alice with wallet_balance := 20 + 20 } := by
  have h := updateWithdrawal_no_terminal_guard exDbTerminal "a1" "w1"
    { status := .rejected } 9 adminUser wApproved alice
    (by decide) (by decide) (by decide) (Or.inl (by decide)) (by decide)
  exact h.2.1 rfl

/-- C7: at signup with a (truthy) referral code and a free email, a code
resolving to a user credits that referrers wallet_balance and total_earned
by exactly 5.0 and appends exactly one referral_bonus transaction, the new
user getting referred_by set and balance 0; a code resolving to nobody
still succeeds, changes no existing user document and no transaction. -/
theorem signup_referral
    (db : DB) (d : UserCreate) (newId refCode pwHash txId : String) (now : Nat)
    (code : String)
    (hemail : db.users.find? (fun u => u.email == d.email) = none)
    (hcode : truthy d.referral_code = some code) :
    (∀ referrer r0, db.users.find? (fun u => u.referral_code == code) = some referrer →
      findUser db referrer.id = some r0 →
      ∃ db' newUser, signup db d newId refCode pwHash txId now = .ok (db', newUser) ∧
        newUser.referred_by = some referrer.id ∧
        newUser.wallet_balance = 0 ∧
        findUser db' referrer.id =
          some { r0 with wallet_balance := r0.wallet_balance + 5,
                         total_earned := r0.total_earned + 5 } ∧
        db'.transactions = db.transactions ++
          [{ id := txId, user_id := referrer.id, type := "referral_bonus",
             amount := 5,
             description := "Referral bonus for inviting " ++ d.full_name,
             created_at := now }]) ∧
    (db.users.find? (fun u => u.referral_code == code) = none →
      ∃ db' newUser, signup db d newId refCode pwHash txId now = .ok (db', newUser) ∧
        newUser.referred_by = none ∧
        newUser.wallet_balance = 0 ∧
        db'.users = db.users ++ [newUser] ∧
        db'.transactions = db.transactions) := by
  constructor
  · intro referrer r0 href hr0
    have hres : signup db d newId refCode pwHash txId now =
        .ok ({ db with
                users := updateFirst (fun u => u.id == referrer.id)
                  (fun u => { u with wallet_balance := u.wallet_balance + 5,
                                     total_earned := u.total_earned + 5 })
                  db.users ++
                  [{ id := newId, email := d.email, password_hash := pwHash,
                     full_name := d.full_name, referral_code := refCode,
                     referred_by := some referrer.id, created_at := now }],
                transactions := db.transactions ++
                  [{ id := txId, user_id := referrer.id,
                     type := "referral_bonus", amount := 5,
                     description := "Referral bonus for inviting " ++ d.full_name,
                     created_at := now }] },
             { id := newId, email := d.email, password_hash := pwHash,
               full_name := d.full_name, referral_code := refCode,
               referred_by := some referrer.id, created_at := now }) := by
      unfold signup
      rw [hemail]
      simp only [Option.isSome_none, Bool.false_eq_true, if_false]
      simp only [hcode, href]
    refine ⟨_, _, hres, rfl, rfl, ?_, rfl⟩
    unfold findUser
    dsimp only
    rw [List.find?_append]
    rw [find?_updateFirst_same (fun u => u.id == referrer.id)
      (fun u => { u with wallet_balance := u.wallet_balance + 5,
                         total_earned := u.total_earned + 5 })
      (fun a ha => ha) db.users]
    rw [show db.users.find? (fun u => u.id == referrer.id) = some r0 from hr0]
    rfl
  · intro href
    have hres : signup db d newId refCode pwHash txId now =
        .ok ({ db with
                users := db.users ++
                  [{ id := newId, email := d.email, password_hash := pwHash,
                     full_name := d.full_name, referral_code := refCode,
                     created_at := now }] },
             { id := newId, email := d.email, password_hash := pwHash,
               full_name := d.full_name, referral_code := refCode,
               created_at := now }) := by
      unfold signup
      rw [hemail]
      simp only [Option.isSome_none, Bool.false_eq_true, if_false]
      simp only [hcode, href]
    exact ⟨_, _, hres, rfl, rfl, rfl, rfl⟩

/-- C7 witness: Carol signs up citing alices code; alice moves to 25 / 25
with one referral_bonus transaction, Carol starts at 0 referred by u1.
Dave cites an unknown code and signs up with nothing else changing. -/
theorem signup_referral_witness :
    (∃ db' newUser, signup exDb
        { email := "carol@example.com", password := "pw", full_name := "Carol",
          referral_code := some "ALICE123" } "u7" "CAROL123" "h7" "t7" 11 =
        .ok (db', newUser) ∧
      newUser.referred_by = some "u1" ∧
      newUser.wallet_balance = 0 ∧
      findUser db' "u1" =
        some { alice with wallet_balance := 20 + 5, total_earned := 20 + 5 } ∧
      db'.transactions = exDb.transactions ++
        [{ id := "t7", user_id := "u1", type := "referral_bonus", amount := 5,
           description := "Referral bonus for inviting " ++ "Carol",
           created_at := 11 }]) ∧
    (∃ db' newUser, signup exDb
        { email := "dave@example.com", password := "pw", full_name := "Dave",
          referral_code := some "NOPE9999" } "u8" "DAVE1234" "h8" "t8" 12 =
        .ok (db', newUser) ∧
      newUser.referred_by = none ∧
      newUser.wallet_balance = 0 ∧
      db'.users = exDb.users ++ [newUser] ∧
      db'.transactions = exDb.transactions) := by
  constructor
  · exact (signup_referral exDb
      { email := "carol@example.com", password := "pw", full_name := "Carol",
        referral_code := some "ALICE123" } "u7" "CAROL123" "h7" "t7" 11
      "ALICE123" (by decide) rfl).1 alice alice (by decide) (by decide)
  · exact (signup_referral exDb
      { email := "dave@example.com", password := "pw", full_name := "Dave",
        referral_code := some "NOPE9999" } "u8" "DAVE1234" "h8" "t8" 12
      "NOPE9999" (by decide) rfl).2 (by decide)

/-- A withdrawal request never touches the transactions collection. -/
theorem request_withdrawal_transactions (db : DB) (uid : String)
    (wd : WithdrawalCreate) (newId : String) (now : Nat) :
    (dbAfter (request_withdrawal db uid wd newId now) db).transactions =
      db.transactions := by
  unfold request_withdrawal
  cases h : findUser db uid with
  | none => rfl
  | some cu =>
    dsimp only
    by_cases h1 : wd.amount < 10
    · simp only [if_pos h1]
      rfl
    · simp only [if_neg h1]
      cases h2 : findUser db cu.id with
      | none => rfl
      | some user =>
        dsimp only
        by_cases h3 : user.wallet_balance < wd.amount
        · simp only [if_pos h3]
          rfl
        · simp only [if_neg h3]
          rfl

/-- A signup appends at most one transaction, always a referral bonus. -/
theorem signup_transactions (db : DB) (d : UserCreate)
    (newId refCode pwHash txId : String) (now : Nat) :
    ∃ l, (dbAfter (signup db d newId refCode pwHash txId now) db).transactions =
        db.transactions ++ l ∧ ∀ t ∈ l, t.type = "referral_bonus" := by
  by_cases he : (db.users.find? (fun u => u.email == d.email)).isSome
  · refine ⟨[], ?_, by simp⟩
    rw [signup_email_taken_eq db d newId refCode pwHash txId now he]
    simp [dbAfter]
  · cases hc : truthy d.referral_code with
    | none =>
      refine ⟨[], ?_, by simp⟩
      rw [signup_no_referral_eq db d newId refCode pwHash txId now he hc]
      simp [dbAfter]
    | some code =>
      cases hr : db.users.find? (fun u => u.referral_code == code) with
      | none =>
        refine ⟨[], ?_, by simp⟩
        rw [signup_unknown_code_eq db d newId refCode pwHash txId now code he hc hr]
        simp [dbAfter]
      | some referrer =>
        refine ⟨[{ id := txId, user_id := referrer.id, type := "referral_bonus",
                   amount := 5,
                   description := "Referral bonus for inviting " ++ d.full_name,
                   created_at := now }], ?_, ?_⟩
        · rw [signup_with_referrer_eq db d newId refCode pwHash txId now code
            referrer he hc hr]
          rfl
        · intro t ht
          rw [List.mem_singleton] at ht
          rw [ht]

/-- An ad watch appends exactly one transaction, always an ad reward. -/
theorem watch_ad_transactions (db : DB) (uid : String) (ad_data : AdWatchCreate)
    (adId txId : String) (now : Nat) :
    ∃ l, (dbAfter (watch_ad db uid ad_data adId txId now) db).transactions =
        db.transactions ++ l ∧ ∀ t ∈ l, t.type = "ad_reward" := by
  unfold watch_ad
  cases h : findUser db uid with
  | none => exact ⟨[], by simp [dbAfter], by simp⟩
  | some cu =>
    refine ⟨[{ id := txId, user_id := cu.id, type := "ad_reward", amount := 1/2,
               description := "Reward for watching " ++ ad_data.ad_type ++ " ad",
               created_at := now }], rfl, ?_⟩
    intro t ht
    rw [List.mem_singleton] at ht
    rw [ht]

/-- Processing a withdrawal never touches the transactions collection. -/
theorem update_withdrawal_transactions (db : DB) (aid wid : String)
    (upd : WithdrawalUpdate) (now : Nat) :
    (dbAfter (update_withdrawal db aid wid upd now) db).transactions =
      db.transactions := by
  unfold update_withdrawal update_withdrawal_effects
  cases ha : findUser db aid with
  | none => rfl
  | some adm =>
    dsimp only
    by_cases hA : adm.is_admin
    · simp only [if_pos hA]
      cases hw : db.withdrawals.find? (fun x => x.id == wid) with
      | none => rfl
      | some w =>
        dsimp only
        by_cases hrej : upd.status = .rejected
        · simp only [if_pos hrej]
          rfl
        · simp only [if_neg hrej]
          rfl
    · simp only [if_neg hA]
      rfl

/-- C8: a withdrawal request leaves the transactions collection unchanged
(the debit writes no ledger row), and across all four mutating handlers
the only transactions ever appended are ad rewards and referral bonuses;
withdrawal processing also appends none. -/
theorem transaction_append_frame (db : DB) :
    (∀ uid wd newId now,
      (dbAfter (request_withdrawal db uid wd newId now) db).transactions =
        db.transactions) ∧
    (∀ d newId refCode pwHash txId now, ∃ l,
      (dbAfter (signup db d newId refCode pwHash txId now) db).transactions =
        db.transactions ++ l ∧ ∀ t ∈ l, t.type = "referral_bonus") ∧
    (∀ uid ad_data adId txId now, ∃ l,
      (dbAfter (watch_ad db uid ad_data adId txId now) db).transactions =
        db.transactions ++ l ∧ ∀ t ∈ l, t.type = "ad_reward") ∧
    (∀ aid wid upd now,
      (dbAfter (update_withdrawal db aid wid upd now) db).transactions =
        db.transactions) :=
  ⟨fun uid wd newId now => request_withdrawal_transactions db uid wd newId now,
   fun d newId refCode pwHash txId now =>
     signup_transactions db d newId refCode pwHash txId now,
   fun uid ad_data adId txId now =>
     watch_ad_transactions db uid ad_data adId txId now,
   fun aid wid upd now => update_withdrawal_transactions db aid wid upd now⟩

/-- C8 witness: alices successful withdrawal request of 15 leaves the
(empty) transaction history of the store untouched. -/
theorem transaction_append_frame_witness :
    (dbAfter (request_withdrawal exDb "u1"
        { amount := 15, payment_method := .khalti, payment_id := "k1" }
        "w9" 7) exDb).transactions = exDb.transactions :=
  (transaction_append_frame exDb).1 "u1"
    { amount := 15, payment_method := .khalti, payment_id := "k1" } "w9" 7

/-- `updateFirst` keeps all balances non-negative when the update cannot
turn a non-negative balance negative. -/
theorem balancesNonneg_updateFirst (p : User → Bool) (f : User → User)
    (l : List User) (h : ∀ u ∈ l, 0 ≤ u.wallet_balance)
    (hf : ∀ u, 0 ≤ u.wallet_balance → 0 ≤ (f u).wallet_balance) :
    ∀ u ∈ updateFirst p f l, 0 ≤ u.wallet_balance := by
  intro u hu
  rcases mem_updateFirst p f l hu with h1 | ⟨b, hb, rfl⟩
  · exact h u h1
  · exact hf b (h b (List.mem_of_find?_eq_some hb))

/-- `updateFirst` keeps all withdrawal amounts non-negative when the update
does not touch the amount. -/
theorem amountsNonneg_updateFirst (p : WithdrawalRequest → Bool)
    (f : WithdrawalRequest → WithdrawalRequest) (l : List WithdrawalRequest)
    (h : ∀ w ∈ l, 0 ≤ w.amount) (hf : ∀ w, (f w).amount = w.amount) :
    ∀ w ∈ updateFirst p f l, 0 ≤ w.amount := by
  intro w hw
  rcases mem_updateFirst p f l hw with h1 | ⟨b, hb, rfl⟩
  · exact h w h1
  · rw [hf]
    exact h b (List.mem_of_find?_eq_some hb)

/-- C5 counterexample: all balances of the store are non-negative, yet a
pending withdrawal document recording a negative amount exists; rejecting
it drives the owners balance to -20, so the operation does not preserve
non-negativity of balances from that state. -/
theorem nonneg_balance_counterexample :
    BalancesNonneg exDbNegative ∧
    (findUser (dbAfter (update_withdrawal exDbNegative "a1" "w2"
        { status := .rejected } 9) exDbNegative) "u2").map
      (fun u => u.wallet_balance) = some (-20) ∧
    ¬ BalancesNonneg (dbAfter (update_withdrawal exDbNegative "a1" "w2"
        { status := .rejected } 9) exDbNegative) := by
  refine ⟨by decide, ?_, ?_⟩
  · show some ((0 : ℚ) + -20) = some (-20)
    norm_num
  · intro hinv
    have hfind : findUser (dbAfter (update_withdrawal exDbNegative "a1" "w2"
        { status := .rejected } 9) exDbNegative) "u2" =
        some { bob with wallet_balance := 0 + -20 } := rfl
    have hmem := List.mem_of_find?_eq_some hfind
    have hge := hinv _ hmem
    have hge' : (0 : ℚ) ≤ 0 + -20 := hge
    norm_num at hge'

/-- C5 amended: under the joint invariant that all balances and all
recorded withdrawal amounts are non-negative, each of the four mutating
handlers preserves both parts; the withdrawal-amount part is needed because
the rejection refund credits the recorded amount blindly. -/
theorem ops_preserve_nonneg (db : DB)
    (hb : BalancesNonneg db) (hw : WithdrawalAmountsNonneg db) :
    (∀ d newId refCode pwHash txId now,
      BalancesNonneg (dbAfter (signup db d newId refCode pwHash txId now) db) ∧
      WithdrawalAmountsNonneg
        (dbAfter (signup db d newId refCode pwHash txId now) db)) ∧
    (∀ uid ad_data adId txId now,
      BalancesNonneg (dbAfter (watch_ad db uid ad_data adId txId now) db) ∧
      WithdrawalAmountsNonneg
        (dbAfter (watch_ad db uid ad_data adId txId now) db)) ∧
    (∀ uid wd newId now,
      BalancesNonneg (dbAfter (request_withdrawal db uid wd newId now) db) ∧
      WithdrawalAmountsNonneg
        (dbAfter (request_withdrawal db uid wd newId now) db)) ∧
    (∀ aid wid upd now,
      BalancesNonneg (dbAfter (update_withdrawal db aid wid upd now) db) ∧
      WithdrawalAmountsNonneg
        (dbAfter (update_withdrawal db aid wid upd now) db)) := by
  refine ⟨?_, ?_, ?_, ?_⟩
  · intro d newId refCode pwHash txId now
    by_cases he : (db.users.find? (fun u => u.email == d.email)).isSome
    · rw [signup_email_taken_eq db d newId refCode pwHash txId now he]
      exact ⟨hb, hw⟩
    · cases hc : truthy d.referral_code with
      | none =>
        rw [signup_no_referral_eq db d newId refCode pwHash txId now he hc]
        refine ⟨?_, hw⟩
        intro u hu
        have hu' : u ∈ db.users ++
            [{ id := newId, email := d.email, password_hash := pwHash,
               full_name := d.full_name, referral_code := refCode,
               created_at := now }] := hu
        rcases List.mem_append.mp hu' with hm | hm
        · exact hb u hm
        · rw [List.mem_singleton] at hm
          subst hm
          exact le_refl 0
      | some code =>
        cases hr : db.users.find? (fun u => u.referral_code == code) with
        | none =>
          rw [signup_unknown_code_eq db d newId refCode pwHash txId now code he hc hr]
          refine ⟨?_, hw⟩
          intro u hu
          have hu' : u ∈ db.users ++
              [{ id := newId, email := d.email, password_hash := pwHash,
                 full_name := d.full_name, referral_code := refCode,
                 created_at := now }] := hu
          rcases List.mem_append.mp hu' with hm | hm
          · exact hb u hm
          · rw [List.mem_singleton] at hm
            subst hm
            exact le_refl 0
        | some referrer =>
          rw [signup_with_referrer_eq db d newId refCode pwHash txId now code
            referrer he hc hr]
          refine ⟨?_, hw⟩
          intro u hu
          have hu' : u ∈ updateFirst (fun v => v.id == referrer.id)
              (fun v => { v with wallet_balance := v.wallet_balance + 5,
                                 total_earned := v.total_earned + 5 }) db.users ++
              [{ id := newId, email := d.email, password_hash := pwHash,
                 full_name := d.full_name, referral_code := refCode,
                 referred_by := some referrer.id, created_at := now }] := hu
          rcases List.mem_append.mp hu' with hm | hm
          · exact balancesNonneg_updateFirst _ _ db.users hb
              (fun v hv => add_nonneg hv (by norm_num)) u hm
          · rw [List.mem_singleton] at hm
            subst hm
            exact le_refl 0
  · intro uid ad_data adId txId now
    cases h : findUser db uid with
    | none =>
      have herr : watch_ad db uid ad_data adId txId now = .error .unauthorized := by
        unfold watch_ad
        rw [h]
      rw [herr]
      exact ⟨hb, hw⟩
    | some cu =>
      rw [watch_ad_eq db uid ad_data adId txId now cu h]
      refine ⟨?_, hw⟩
      intro u hu
      have hu' : u ∈ updateFirst (fun v => v.id == cu.id)
          (fun v => { v with wallet_balance := v.wallet_balance + 1/2,
                             total_earned := v.total_earned + 1/2,
                             ads_watched := v.ads_watched + 1 }) db.users := hu
      exact balancesNonneg_updateFirst _ _ db.users hb
        (fun v hv => add_nonneg hv (by norm_num)) u hu'
  · intro uid wd newId now
    unfold request_withdrawal
    cases h : findUser db uid with
    | none => exact ⟨hb, hw⟩
    | some cu =>
      dsimp only
      by_cases h1 : wd.amount < 10
      · simp only [if_pos h1]
        exact ⟨hb, hw⟩
      · simp only [if_neg h1]
        cases h2 : findUser db cu.id with
        | none => exact ⟨hb, hw⟩
        | some user =>
          dsimp only
          by_cases h3 : user.wallet_balance < wd.amount
          · simp only [if_pos h3]
            exact ⟨hb, hw⟩
          · simp only [if_neg h3]
            constructor
            · intro u hu
              have hu' : u ∈ updateFirst (fun v => v.id == cu.id)
                  (fun v => { v with wallet_balance := v.wallet_balance - wd.amount })
                  db.users := hu
              rcases mem_updateFirst _ _ _ hu' with hm | ⟨b, hfb, rfl⟩
              · exact hb u hm
              · have hbu : b = user := by
                  have h2' : db.users.find? (fun v => v.id == cu.id) = some user := h2
                  rw [h2'] at hfb
                  exact (Option.some.inj hfb).symm
                show 0 ≤ b.wallet_balance - wd.amount
                rw [hbu]
                have hle := not_lt.mp h3
                linarith
            · intro w hwm
              have hw' : w ∈ db.withdrawals ++
                  [{ id := newId, user_id := cu.id, amount := wd.amount,
                     payment_method := wd.payment_method,
                     payment_id := wd.payment_id, status := .pending,
                     requested_at := now, processed_at := none,
                     admin_notes := none }] := hwm
              rcases List.mem_append.mp hw' with hm | hm
              · exact hw w hm
              · rw [List.mem_singleton] at hm
                subst hm
                show 0 ≤ wd.amount
                have h10 := not_lt.mp h1
                linarith
  · intro aid wid upd now
    cases ha : findUser db aid with
    | none =>
      have herr : update_withdrawal db aid wid upd now = .error .unauthorized := by
        unfold update_withdrawal update_withdrawal_effects
        rw [ha]
        rfl
      rw [herr]
      exact ⟨hb, hw⟩
    | some adm =>
      by_cases hA : adm.is_admin
      · cases hwid : db.withdrawals.find? (fun x => x.id == wid) with
        | none =>
          have herr : update_withdrawal db aid wid upd now = .error .notFound := by
            unfold update_withdrawal update_withdrawal_effects
            rw [ha]
            dsimp only
            rw [if_pos hA, hwid]
            rfl
          rw [herr]
          exact ⟨hb, hw⟩
        | some w =>
          by_cases hrej : upd.status = .rejected
          · rw [update_withdrawal_rejected_eq db aid wid upd now adm w ha hA hwid hrej]
            have hamt : 0 ≤ w.amount := hw w (List.mem_of_find?_eq_some hwid)
            constructor
            · intro u hu
              have hu' : u ∈ updateFirst (fun v => v.id == w.user_id)
                  (fun v => { v with wallet_balance := v.wallet_balance + w.amount })
                  db.users := hu
              exact balancesNonneg_updateFirst _ _ db.users hb
                (fun v hv => add_nonneg hv hamt) u hu'
            · intro x hx
              have hx' : x ∈ updateFirst (fun v => v.id == wid)
                  (setFields upd.status now (truthy upd.admin_notes))
                  db.withdrawals := hx
              exact amountsNonneg_updateFirst (fun v => v.id == wid)
                (setFields upd.status now (truthy upd.admin_notes))
                db.withdrawals hw (fun v => rfl) x hx'
          · rw [update_withdrawal_not_rejected_eq db aid wid upd now adm w ha hA hwid hrej]
            refine ⟨hb, ?_⟩
            intro x hx
            have hx' : x ∈ updateFirst (fun v => v.id == wid)
                (setFields upd.status now (truthy upd.admin_notes))
                db.withdrawals := hx
            exact amountsNonneg_updateFirst (fun v => v.id == wid)
              (setFields upd.status now (truthy upd.admin_notes))
              db.withdrawals hw (fun v => rfl) x hx'
      · have herr : update_withdrawal db aid wid upd now = .error .forbidden := by
          unfold update_withdrawal update_withdrawal_effects
          rw [ha]
          dsimp only
          rw [if_neg hA]
          rfl
        rw [herr]
        exact ⟨hb, hw⟩

/-- C5 amended witness: in the two-user store every balance and amount is
non-negative, and after alices successful withdrawal of 15 both parts of
the invariant still hold. -/
theorem ops_preserve_nonneg_witness :
    BalancesNonneg exDb ∧ WithdrawalAmountsNonneg exDb ∧
    (BalancesNonneg (dbAfter (request_withdrawal exDb "u1"
        { amount := 15, payment_method := .khalti, payment_id := "k1" }
        "w9" 7) exDb) ∧
     WithdrawalAmountsNonneg (dbAfter (request_withdrawal exDb "u1"
        { amount := 15, payment_method := .khalti, payment_id := "k1" }
        "w9" 7) exDb)) :=
  ⟨by decide, by decide,
   (ops_preserve_nonneg exDb (by decide) (by decide)).2.2.1 "u1"
     { amount := 15, payment_method := .khalti, payment_id := "k1" } "w9" 7⟩

/-- The comparison used by the listings is transitive. -/
theorem keyDescTrans {α : Type} (key : α → Nat) :
    ∀ (a b c : α), (decide (key b ≤ key a)) = true →
      (decide (key c ≤ key b)) = true → (decide (key c ≤ key a)) = true := by
  intro a b c h1 h2
  simp only [decide_eq_true_eq] at h1 h2 ⊢
  omega

/-- The comparison used by the listings is total. -/
theorem keyDescTotal {α : Type} (key : α → Nat) :
    ∀ (a b : α), ((decide (key b ≤ key a)) || (decide (key a ≤ key b))) = true := by
  intro a b
  simp only [Bool.or_eq_true, decide_eq_true_eq]
  omega

/-- Sorting by a key descending and taking 100 yields a newest-first list
of at most 100 entries. -/
theorem sortTake_sorted_capped {α : Type} (key : α → Nat) (l : List α) :
    ((l.mergeSort (fun a b => key b ≤ key a)).take 100).Pairwise
      (fun a b => key b ≤ key a) ∧
    ((l.mergeSort (fun a b => key b ≤ key a)).take 100).length ≤ 100 := by
  constructor
  · have hs := @List.sorted_mergeSort _ (fun a b => decide (key b ≤ key a))
      (keyDescTrans key) (keyDescTotal key) l
    have hs' := List.Pairwise.sublist (List.take_sublist 100 _) hs
    exact hs'.imp (fun h => by simpa using h)
  · rw [List.length_take]
    exact min_le_left _ _

/-- C9: the transaction listing, the per-user withdrawal listing and the
admin withdrawal listing each return their items newest-first by timestamp
and return at most 100 entries. -/
theorem listings_sorted_capped (db : DB) (uid aid : String) (u adm : User)
    (hu : findUser db uid = some u) (hadm : findUser db aid = some adm)
    (hA : adm.is_admin = true) :
    (∀ l, get_transactions db uid = .ok l →
      l.Pairwise (fun a b => b.created_at ≤ a.created_at) ∧ l.length ≤ 100) ∧
    (∀ l, get_my_withdrawals db uid = .ok l →
      l.Pairwise (fun a b => b.requested_at ≤ a.requested_at) ∧
      l.length ≤ 100) ∧
    (∀ l, get_all_withdrawals db aid = .ok l →
      l.Pairwise (fun a b => b.w.requested_at ≤ a.w.requested_at) ∧
      l.length ≤ 100) := by
  refine ⟨?_, ?_, ?_⟩
  · intro l hl
    have heq : get_transactions db uid =
        .ok (((db.transactions.filter (fun t => t.user_id == u.id)).mergeSort
          (fun a b => b.created_at ≤ a.created_at)).take 100) := by
      unfold get_transactions
      rw [hu]
    rw [heq] at hl
    obtain rfl := (Except.ok.inj hl).symm
    exact sortTake_sorted_capped (fun t : WalletTransaction => t.created_at) _
  · intro l hl
    have heq : get_my_withdrawals db uid =
        .ok (((db.withdrawals.filter (fun w => w.user_id == u.id)).mergeSort
          (fun a b => b.requested_at ≤ a.requested_at)).take 100) := by
      unfold get_my_withdrawals
      rw [hu]
    rw [heq] at hl
    obtain rfl := (Except.ok.inj hl).symm
    exact sortTake_sorted_capped (fun w : WithdrawalRequest => w.requested_at) _
  · intro l hl
    have heq : get_all_withdrawals db aid =
        .ok (((db.withdrawals.mergeSort
            (fun a b => b.requested_at ≤ a.requested_at)).take 100).map
          (fun w => match findUser db w.user_id with
            | some v => { w := w, user_name := v.full_name,
                          user_email := v.email }
            | none => { w := w, user_name := "Unknown",
                        user_email := "Unknown" })) := by
      unfold get_all_withdrawals
      rw [hadm]
      dsimp only
      rw [if_pos hA]
    rw [heq] at hl
    obtain rfl := (Except.ok.inj hl).symm
    have hjoin : ∀ x : WithdrawalRequest,
        ((fun w : WithdrawalRequest => match findUser db w.user_id with
          | some v => ({ w := w, user_name := v.full_name,
                         user_email := v.email } : AdminWithdrawalView)
          | none => { w := w, user_name := "Unknown",
                      user_email := "Unknown" }) x).w = x := by
      intro x
      show (match findUser db x.user_id with
        | some v => ({ w := x, user_name := v.full_name,
                       user_email := v.email } : AdminWithdrawalView)
        | none => { w := x, user_name := "Unknown",
                    user_email := "Unknown" }).w = x
      cases findUser db x.user_id <;> rfl
    have hbase := sortTake_sorted_capped (fun w : WithdrawalRequest => w.requested_at) db.withdrawals
    constructor
    · rw [List.pairwise_map]
      exact hbase.1.imp (fun hab => by
        rw [hjoin, hjoin]
        exact hab)
    · rw [List.length_map]
      exact hbase.2

/-- C9 witness: on the store holding a single pending withdrawal, the three
listings return an empty transaction list and the one-element withdrawal
lists, which are trivially newest-first and within the 100 cap. -/
theorem listings_sorted_capped_witness :
    (get_transactions exDbPending "u1" = .ok [] ∧
      ([] : List WalletTransaction).Pairwise
        (fun a b => b.created_at ≤ a.created_at) ∧
      ([] : List WalletTransaction).length ≤ 100) ∧
    (get_my_withdrawals exDbPending "u1" = .ok [wPending] ∧
      [wPending].Pairwise (fun a b => b.requested_at ≤ a.requested_at) ∧
      [wPending].length ≤ 100) := by
  have h1 : get_transactions exDbPending "u1" = .ok [] := by
    unfold get_transactions
    rw [show findUser exDbPending "u1" = some alice from by decide]
    simp [exDbPending]
  have h2 : get_my_withdrawals exDbPending "u1" = .ok [wPending] := by
    unfold get_my_withdrawals
    rw [show findUser exDbPending "u1" = some alice from by decide]
    simp [exDbPending, wPending, alice]
  have hthm := listings_sorted_capped exDbPending "u1" "a1" alice adminUser
    (by decide) (by decide) (by decide)
  refine ⟨⟨h1, ?_, ?_⟩, ⟨h2, ?_, ?_⟩⟩
  · exact (hthm.1 [] h1).1
  · exact (hthm.1 [] h1).2
  · exact (hthm.2.1 [wPending] h2).1
  · exact (hthm.2.1 [wPending] h2).2

end Server